import Mathlib

/-!
Verification of the transcription task processing engine of the
`chatbot-gen` repository against its natural-language specification.

The development shallowly embeds the relevant TypeScript functions:

* `src/db/transcription.ts` — task-store client: the conditional claim
  update (`claimTranscriptionTaskForProcessing`), the unconditional
  release (`resetTranscriptionTaskProcessing`) and the chunk-file fetch
  (`fetchTranscriptionFilesByTaskId`).
* `src/realtime/transcription.ts` — the dual-trigger scheduler: the
  event-path and poll-path error handlers and the poll selection filter.
* `src/utils/transcription.ts` — the merge pipeline: chunk download,
  segmentation with fallback (`splitMediaIntoChunks`), the
  bounded-concurrency segment worker pool, result publication and
  cleanup.
* `src/utils/chunkedUploads.ts` — the chunked-upload assembler:
  ordered chunk download with size verification, binary concatenation,
  and the chunk-ordering comparator of `assembleAndTranscribeM4a`.

Effectful operations (HTTP downloads, ffmpeg subprocesses, Supabase
calls) are modelled by explicit outcome parameters (`Except`-valued
arguments or abstract content functions), and the database row by an
explicit record that the embedded operations transform.
-/

/-- One row of the `transciption_task` table, restricted to the columns the
transcription engine reads or writes.  `result_url` doubles as the claim
sentinel: `none` (SQL NULL) means unclaimed. -/
structure TaskRow where
  id : String
  result_url : Option String
  status : String
  openai_task_id : Option String
  progress : Option String
  language : Option String
deriving Repr, DecidableEq

/-- The processing marker written into `result_url` by a successful claim:
`processing:<workerId>:<Date.now()>` (src/db/transcription.ts line 71). -/
def processingMarker (workerId : String) (now : Nat) : String :=
  "processing" ++ ":" ++ workerId ++ ":" ++ toString now

/-- The conditional update at the heart of the claim
(src/db/transcription.ts lines 76-84): `UPDATE ... SET result_url =
marker, status = PROCESSING WHERE id = taskId AND result_url IS NULL`.
Returns the updated row together with the number of rows affected (0 or
1 for the single matched row). -/
def claimUpdate (row : TaskRow) (marker : String) : TaskRow × Nat :=
  if row.result_url = none then
    ({ row with result_url := some marker, status := "PROCESSING" }, 1)
  else
    (row, 0)

/-- `claimTranscriptionTaskForProcessing` (src/db/transcription.ts lines
67-102): performs the single conditional update and reports
`claimed := (affected rows = 1)` (line 100: `data.length === 1`).
The fallback branch for environments without a `status` column performs
the same conditional update without touching `status`; the modelled
store has the column, so the primary branch applies. -/
def claimTranscriptionTaskForProcessing (row : TaskRow) (workerId : String)
    (now : Nat) : TaskRow × Bool :=
  let upd := claimUpdate row (processingMarker workerId now)
  (upd.1, upd.2 == 1)

/-- `resetTranscriptionTaskProcessing` (src/db/transcription.ts lines
107-125): unconditional update clearing the sentinel and the correlation
id and setting the status to the given value (the TypeScript default is
`"PENDING"`). -/
def resetTranscriptionTaskProcessing (row : TaskRow)
    (newStatus : String := "PENDING") : TaskRow :=
  { row with result_url := none, status := newStatus, openai_task_id := none }

/-- A sequence of claim attempts `(workerId, now)` applied to a task row in
the serialization order chosen by the store; returns the final row and
each attempt's `claimed` flag in order. -/
def runClaims (row : TaskRow) : List (String × Nat) → TaskRow × List Bool
  | [] => (row, [])
  | a :: rest =>
    let first := claimTranscriptionTaskForProcessing row a.1 a.2
    let later := runClaims first.1 rest
    (later.1, first.2 :: later.2)

/-- Once the sentinel is set, every further claim attempt fails and leaves
the row unchanged. -/
theorem runClaims_claimed_row (row : TaskRow) (attempts : List (String × Nat))
    (h : row.result_url ≠ none) :
    runClaims row attempts = (row, List.replicate attempts.length false) := by
  induction attempts with
  | nil => simp [runClaims]
  | cons a rest ih =>
    simp only [runClaims, claimTranscriptionTaskForProcessing, claimUpdate,
      if_neg h, ih]
    simp [List.replicate_succ]

/-- Helper: number of successful claims in a run. -/
def countClaimed (bs : List Bool) : Nat := bs.count true

theorem countClaimed_replicate_false (n : Nat) :
    countClaimed (List.replicate n false) = 0 := by
  simp [countClaimed, List.count_replicate]

/-- C1: among any number of claim attempts for one task, serialized in any
order by the store's atomic conditional update, at most one attempt
observes `claimed = true`; when the sentinel starts out NULL and at
least one attempt is made, exactly one succeeds; and an attempt that
returns `claimed = false` leaves the task row unchanged. -/
theorem claimTask_at_most_one_claim (row : TaskRow)
    (attempts : List (String × Nat)) :
    countClaimed (runClaims row attempts).2 ≤ 1
    ∧ (row.result_url = none → attempts ≠ [] →
        countClaimed (runClaims row attempts).2 = 1)
    ∧ (∀ r : TaskRow, ∀ w : String, ∀ t : Nat,
        (claimTranscriptionTaskForProcessing r w t).2 = false →
        (claimTranscriptionTaskForProcessing r w t).1 = r) := by
  refine ⟨?_, ?_, ?_⟩
  · cases attempts with
    | nil => simp [runClaims, countClaimed]
    | cons a rest =>
      by_cases h : row.result_url = none
      · simp only [runClaims, claimTranscriptionTaskForProcessing, claimUpdate,
          if_pos h]
        rw [runClaims_claimed_row _ rest (by simp)]
        simp [countClaimed, countClaimed_replicate_false, List.count_replicate]
      · rw [runClaims_claimed_row _ _ h]
        simp [countClaimed_replicate_false]
  · intro hnone hne
    cases attempts with
    | nil => exact absurd rfl hne
    | cons a rest =>
      simp only [runClaims, claimTranscriptionTaskForProcessing, claimUpdate,
        if_pos hnone]
      rw [runClaims_claimed_row _ rest (by simp)]
      simp [countClaimed, List.count_replicate]
  · intro r w t hfail
    by_cases h : r.result_url = none
    · simp [claimTranscriptionTaskForProcessing, claimUpdate, if_pos h] at hfail
    · simp [claimTranscriptionTaskForProcessing, claimUpdate, if_neg h]

/-- C1 witness: three concurrent claim attempts on an unclaimed task yield
exactly one success, and a losing attempt on a claimed row leaves it
unchanged. -/
theorem claimTask_at_most_one_claim_witness :
    countClaimed (runClaims
      { id := "t1", result_url := none, status := "PENDING",
        openai_task_id := none, progress := none, language := none }
      [("realtime", 5), ("polling", 6), ("polling", 7)]).2 = 1
    ∧ (claimTranscriptionTaskForProcessing
        { id := "t1", result_url := some "processing:realtime:5",
          status := "PROCESSING", openai_task_id := none, progress := none,
          language := none } "polling" 6).1
      = { id := "t1", result_url := some "processing:realtime:5",
          status := "PROCESSING", openai_task_id := none, progress := none,
          language := none } := by
  constructor
  · exact (claimTask_at_most_one_claim
      { id := "t1", result_url := none, status := "PENDING",
        openai_task_id := none, progress := none, language := none }
      [("realtime", 5), ("polling", 6), ("polling", 7)]).2.1 rfl (by decide)
  · exact (claimTask_at_most_one_claim
      { id := "t1", result_url := some "processing:realtime:5",
        status := "PROCESSING", openai_task_id := none, progress := none,
        language := none } []).2.2
      { id := "t1", result_url := some "processing:realtime:5",
        status := "PROCESSING", openai_task_id := none, progress := none,
        language := none } "polling" 6 (by decide)

/-- C10: `resetTranscriptionTaskProcessing` is unconditional (no predicate
on the prior sentinel) and idempotent: it always produces the row with
`result_url = NULL`, `openai_task_id = NULL` and the requested status,
all other columns untouched, and applying it twice equals applying it
once.  The TypeScript default status argument is `"PENDING"`. -/
theorem resetTask_unconditional_idempotent (row : TaskRow) (s : String) :
    (resetTranscriptionTaskProcessing row s).result_url = none
    ∧ (resetTranscriptionTaskProcessing row s).openai_task_id = none
    ∧ (resetTranscriptionTaskProcessing row s).status = s
    ∧ (resetTranscriptionTaskProcessing row s).id = row.id
    ∧ (resetTranscriptionTaskProcessing row s).progress = row.progress
    ∧ (resetTranscriptionTaskProcessing row s).language = row.language
    ∧ resetTranscriptionTaskProcessing (resetTranscriptionTaskProcessing row s) s
      = resetTranscriptionTaskProcessing row s
    ∧ resetTranscriptionTaskProcessing row
      = resetTranscriptionTaskProcessing row "PENDING" := by
  refine ⟨rfl, rfl, rfl, rfl, rfl, rfl, rfl, rfl⟩

/-- The poll path's selection filter (src/realtime/transcription.ts line
145): `.or("result_url.is.null,result_url.eq.")` accepts rows whose
`result_url` is NULL or the empty string. -/
def pollFilterMatches (row : TaskRow) : Bool :=
  row.result_url == none || row.result_url == some ""

/-- One poll cycle as seen by a single task row that has at least one
associated chunk file (src/realtime/transcription.ts lines 142-198):
the row is selected when the filter matches, then a claim is attempted;
when the claim fails the task is skipped (`continue`).  Returns the row
afterwards and whether the task proceeded to processing. -/
def pollCycleStep (row : TaskRow) (hasFiles : Bool) (now : Nat) :
    TaskRow × Bool :=
  if pollFilterMatches row && hasFiles then
    let c := claimTranscriptionTaskForProcessing row "polling" now
    (c.1, c.2)
  else
    (row, false)

/-- Iterated poll cycles over one task row; counts how many cycles
proceeded to processing. -/
def pollCycles (row : TaskRow) (hasFiles : Bool) : Nat → TaskRow × Nat
  | 0 => (row, 0)
  | n + 1 =>
    let s := pollCycleStep row hasFiles n
    let rest := pollCycles s.1 hasFiles n
    (rest.1, (if s.2 then 1 else 0) + rest.2)

/-- C9: a task whose `result_url` is the empty string (non-NULL) matches
the poll path's selection filter, yet every claim attempt on it returns
`claimed = false` and leaves the row unchanged — the claim's conditional
update requires `result_url IS NULL` — so any number of poll cycles
selects it repeatedly without ever processing it. -/
theorem pollPath_empty_sentinel_selected_never_claimed (row : TaskRow)
    (h : row.result_url = some "") :
    pollFilterMatches row = true
    ∧ (∀ w : String, ∀ t : Nat,
        claimTranscriptionTaskForProcessing row w t = (row, false))
    ∧ (∀ n : Nat, pollCycles row true n = (row, 0)) := by
  have hnn : ¬ row.result_url = none := by simp [h]
  refine ⟨?_, ?_, ?_⟩
  · simp [pollFilterMatches, h]
  · intro w t
    simp [claimTranscriptionTaskForProcessing, claimUpdate, hnn]
  · intro n
    induction n with
    | zero => rfl
    | succ n ih =>
      simp only [pollCycles, pollCycleStep, pollFilterMatches, h,
        claimTranscriptionTaskForProcessing, claimUpdate, hnn]
      simp only [pollCycles, pollCycleStep, pollFilterMatches, h,
        claimTranscriptionTaskForProcessing, claimUpdate, hnn] at ih
      simp_all

/-- C9 witness: a concrete task with `result_url = ""` is selected by the
filter but three poll cycles process it zero times. -/
theorem pollPath_empty_sentinel_selected_never_claimed_witness :
    pollFilterMatches
      { id := "t9", result_url := some "", status := "PENDING",
        openai_task_id := none, progress := none, language := none } = true
    ∧ pollCycles
      { id := "t9", result_url := some "", status := "PENDING",
        openai_task_id := none, progress := none, language := none } true 3
      = ({ id := "t9", result_url := some "", status := "PENDING",
           openai_task_id := none, progress := none, language := none }, 0) := by
  refine ⟨?_, ?_⟩
  · exact (pollPath_empty_sentinel_selected_never_claimed _ rfl).1
  · exact (pollPath_empty_sentinel_selected_never_claimed
      { id := "t9", result_url := some "", status := "PENDING",
        openai_task_id := none, progress := none, language := none } rfl).2.2 3

/-- The shared-cursor claim loop of the segment worker pool
(src/utils/transcription.ts lines 384-416): starting from cursor value
`next`, indices `next, next+1, ...` are claimed while they are below
`total`; a worker observing `i >= total` returns.  The list is the set
of segment indices the pool transcribes, in claim order. -/
def cursorIndices (total : Nat) (next : Nat) : List Nat :=
  if h : next < total then next :: cursorIndices total (next + 1) else []
termination_by total - next
decreasing_by omega

/-- The cursor start of a run of `transcribeMediaWithOpenAI`
(src/utils/transcription.ts line 384): `let nextIndex = 0`.  The
function never fetches the task row, so the persisted progress string
plays no role in the start index. -/
def transcribeRunStartIndex (_priorProgress : Option String) : Nat := 0

/-- The segment indices a (re)started run of `transcribeMediaWithOpenAI`
transcribes, as a function of the previously persisted progress string
and the segment count of this run. -/
def transcribeRunProcessedIndices (priorProgress : Option String)
    (total : Nat) : List Nat :=
  cursorIndices total (transcribeRunStartIndex priorProgress)

/-- The progress string written before the workers start
(src/utils/transcription.ts line 366), overwriting any persisted value. -/
def initialSegmentProgress (total : Nat) : String :=
  "0/" ++ toString total ++ " segments"

theorem cursorIndices_eq_range' (total next : Nat) :
    cursorIndices total next = List.range' next (total - next) := by
  generalize hd : total - next = d
  induction d generalizing next with
  | zero =>
    rw [cursorIndices]
    have hge : ¬ next < total := by omega
    simp [hge]
  | succ d ih =>
    rw [cursorIndices]
    have hlt : next < total := by omega
    rw [dif_pos hlt, ih (next + 1) (by omega), List.range'_succ]

/-- C3 counterexample: for a task restarted with persisted progress
"3/5 segments" and five segments, the engine transcribes indices
0,1,2,3,4 — not only 3 and 4 as the claim states. -/
theorem transcribeRun_resumption_counterexample :
    transcribeRunProcessedIndices (some "3/5 segments") 5 = [0, 1, 2, 3, 4]
    ∧ transcribeRunProcessedIndices (some "3/5 segments") 5 ≠ [3, 4] := by
  have h5 : transcribeRunProcessedIndices (some "3/5 segments") 5
      = [0, 1, 2, 3, 4] := by
    rw [transcribeRunProcessedIndices, transcribeRunStartIndex,
      cursorIndices_eq_range']
    decide
  exact ⟨h5, by rw [h5]; decide⟩

/-- C3 amended: a restarted run of `transcribeMediaWithOpenAI` ignores the
persisted progress entirely: whatever progress string the prior partial
run persisted, the cursor starts at 0, all segment indices
0..total-1 are claimed and transcribed, and the persisted progress is
overwritten with "0/total segments" before the workers start. -/
theorem transcribeRun_restart_processes_all_indices
    (priorProgress : Option String) (total : Nat) :
    transcribeRunProcessedIndices priorProgress total = List.range total
    ∧ transcribeRunStartIndex priorProgress = 0
    ∧ initialSegmentProgress total = "0/" ++ toString total ++ " segments" := by
  refine ⟨?_, rfl, rfl⟩
  rw [transcribeRunProcessedIndices, transcribeRunStartIndex,
    cursorIndices_eq_range', Nat.sub_zero, List.range_eq_range']

/-- The write phase of the segment worker pool
(src/utils/transcription.ts lines 371-422, identically
src/utils/chunkedUploads.ts lines 505-538): each segment index `i`
whose transcription completes stores its text `f i` at index `i` of the
pre-sized result array (`results[i] = text`); `order` is the completion
order of the segments, `arr` the array being written. -/
def applyCompletions (f : Nat → String) (order : List Nat)
    (arr : List String) : List String :=
  order.foldl (fun acc i => acc.set i (f i)) arr

/-- The merge of the result array (src/utils/transcription.ts line 424,
src/utils/chunkedUploads.ts line 539): `results.join("\n\n")`. -/
def mergeTranscripts (arr : List String) : String :=
  String.intercalate "\n\n" arr

/-- The merged transcript of a worker-pool run over `total` segments whose
per-segment texts are `f` and whose completions arrive in `order`,
starting from the pre-sized array `new Array(total).fill("")`. -/
def workerPoolMerged (f : Nat → String) (order : List Nat) (total : Nat) :
    String :=
  mergeTranscripts (applyCompletions f order (List.replicate total ""))

theorem applyCompletions_cons (f : Nat → String) (j : Nat) (rest : List Nat)
    (arr : List String) :
    applyCompletions f (j :: rest) arr
      = applyCompletions f rest (arr.set j (f j)) := rfl

theorem applyCompletions_getElem? (f : Nat → String) (order : List Nat)
    (arr : List String) (i : Nat) :
    (applyCompletions f order arr)[i]?
      = if i ∈ order ∧ i < arr.length then some (f i) else arr[i]? := by
  induction order generalizing arr with
  | nil => simp [applyCompletions]
  | cons j rest ih =>
    rw [applyCompletions_cons, ih, List.length_set]
    by_cases hmem : i ∈ rest
    · by_cases hlt : i < arr.length
      · simp [hmem, hlt]
      · simp only [hmem, hlt, and_false, if_false, true_and, and_true,
          if_neg hlt, List.getElem?_set]
        have harr : arr[i]? = none := by
          exact List.getElem?_eq_none (by omega)
        by_cases hji : j = i
        · subst hji
          simp [hlt, harr]
        · simp [hji, harr]
    · have hmem' : (i ∈ j :: rest) ↔ i = j := by
        simp [List.mem_cons, hmem]
      simp only [hmem, false_and, if_false, hmem', List.getElem?_set]
      by_cases hji : j = i
      · subst hji
        by_cases hlt : j < arr.length
        · simp [hlt]
        · have harr : arr[j]? = none := List.getElem?_eq_none (by omega)
          simp [hlt, harr]
      · have : ¬ i = j := fun hc => hji hc.symm
        simp [hji, this]

/-- C2: for any run of the transcription worker pool over `total` segments,
whatever completion order the per-segment transcriptions arrive in (any
order in which every index below `total` completes), the merged
transcript equals the join of the per-segment texts in original segment
index order — each text is written at its own index of the pre-sized
array, and the join never reflects completion order. -/
theorem workerPool_merge_in_index_order (f : Nat → String)
    (order : List Nat) (total : Nat)
    (hcover : ∀ i, i < total → i ∈ order) :
    workerPoolMerged f order total
      = String.intercalate "\n\n" ((List.range total).map f) := by
  unfold workerPoolMerged mergeTranscripts
  congr 1
  apply List.ext_getElem?
  intro n
  rw [applyCompletions_getElem?, List.length_replicate]
  by_cases h : n < total
  · simp [hcover n h, h, List.getElem?_map, List.getElem?_range h]
  · have h1 : (List.replicate total ("" : String))[n]? = none :=
      List.getElem?_eq_none (by simp; omega)
    have h2 : ((List.range total).map f)[n]? = none :=
      List.getElem?_eq_none (by simp; omega)
    simp [h, h1, h2]

/-- C2 witness: three segments completing in order 2,0,1 (with a duplicate
late completion of 1) still merge in index order 0,1,2. -/
theorem workerPool_merge_in_index_order_witness :
    (∀ i, i < 3 → i ∈ [2, 0, 1, 1])
    ∧ workerPoolMerged (fun i => toString i) [2, 0, 1, 1] 3
      = String.intercalate "\n\n" ((List.range 3).map (fun i => toString i)) :=
  ⟨by decide, workerPool_merge_in_index_order (fun i => toString i)
    [2, 0, 1, 1] 3 (by decide)⟩

/-- Substring containment, used to state that a combined error message
contains both underlying failure messages. -/
def containsSub (hay needle : String) : Prop :=
  ∃ pre post : String, hay = pre ++ needle ++ post

/-- Outcome of a run of the segmenter: whether the fallback path was
entered, and the produced segment list or the raised error message. -/
structure SplitOutcome where
  fallbackAttempted : Bool
  result : Except String (List String)
deriving Repr

/-- The combined message raised when primary segmentation and the fallback
both fail (src/utils/transcription.ts line 536). -/
def combineSegmentationErrors (e1 e2 : String) : String :=
  "Primary segmentation failed: " ++ e1
    ++ "; Fallback re-encode failed: " ++ e2

/-- `splitMediaIntoChunks` (src/utils/transcription.ts lines 471-548)
modelled over the outcomes of its effectful steps: `inputCheck` is the
`fs.statSync` validation of the input file, `primary` the direct
segmentation ffmpeg call, `reencode` the fallback re-encode into the
intermediate file, `segmentCopy` the fallback stream-copy segmentation,
and `produced` the sorted `chunk-*.mp3` directory listing returned on
success.  The fallback `catch` combines the primary message with the
message of whichever fallback step failed. -/
def splitMediaIntoChunks (inputCheck : Except String Unit)
    (primary : Except String Unit) (reencode : Except String Unit)
    (segmentCopy : Except String Unit) (produced : List String) :
    SplitOutcome :=
  match inputCheck with
  | Except.error e =>
    { fallbackAttempted := false,
      result := Except.error ("Failed to access input media: " ++ e) }
  | Except.ok _ =>
    match primary with
    | Except.ok _ => { fallbackAttempted := false,
                       result := Except.ok produced }
    | Except.error e1 =>
      match reencode with
      | Except.error e2 =>
        { fallbackAttempted := true,
          result := Except.error (combineSegmentationErrors e1 e2) }
      | Except.ok _ =>
        match segmentCopy with
        | Except.error e2 =>
          { fallbackAttempted := true,
            result := Except.error (combineSegmentationErrors e1 e2) }
        | Except.ok _ =>
          { fallbackAttempted := true, result := Except.ok produced }

/-- C5: whenever the primary direct-segmentation attempt fails, the
fallback (re-encode to an intermediate, then segment by stream copy) is
attempted; if either fallback step fails too, the raised error is the
combination of the primary and fallback messages, and that combined
message contains both failure messages as substrings. -/
theorem splitMedia_fallback_combines_errors (e1 : String)
    (reencode segmentCopy : Except String Unit) (produced : List String) :
    (splitMediaIntoChunks (Except.ok ()) (Except.error e1) reencode
        segmentCopy produced).fallbackAttempted = true
    ∧ (∀ e2 : String, reencode = Except.error e2 →
        (splitMediaIntoChunks (Except.ok ()) (Except.error e1) reencode
            segmentCopy produced).result
          = Except.error (combineSegmentationErrors e1 e2))
    ∧ (∀ e2 : String, reencode = Except.ok () →
        segmentCopy = Except.error e2 →
        (splitMediaIntoChunks (Except.ok ()) (Except.error e1) reencode
            segmentCopy produced).result
          = Except.error (combineSegmentationErrors e1 e2))
    ∧ (∀ m1 m2 : String,
        containsSub (combineSegmentationErrors m1 m2) m1
        ∧ containsSub (combineSegmentationErrors m1 m2) m2) := by
  refine ⟨?_, ?_, ?_, ?_⟩
  · cases reencode with
    | error e2 => rfl
    | ok u => cases segmentCopy with
      | error e2 => rfl
      | ok v => rfl
  · intro e2 h
    subst h
    rfl
  · intro e2 hre hsc
    subst hre
    subst hsc
    rfl
  · intro m1 m2
    constructor
    · refine ⟨"Primary segmentation failed: ",
        "; Fallback re-encode failed: " ++ m2, ?_⟩
      rw [combineSegmentationErrors, String.append_assoc]
    · refine ⟨"Primary segmentation failed: " ++ m1
        ++ "; Fallback re-encode failed: ", "", ?_⟩
      rw [combineSegmentationErrors]
      simp

/-- C5 witness: primary failure "p" followed by fallback re-encode failure
"f" raises the combined message, which contains both "p" and "f". -/
theorem splitMedia_fallback_combines_errors_witness :
    (splitMediaIntoChunks (Except.ok ()) (Except.error "p")
        (Except.error "f") (Except.ok ()) []).fallbackAttempted = true
    ∧ (splitMediaIntoChunks (Except.ok ()) (Except.error "p")
        (Except.error "f") (Except.ok ()) []).result
      = Except.error (combineSegmentationErrors "p" "f")
    ∧ containsSub (combineSegmentationErrors "p" "f") "p"
    ∧ containsSub (combineSegmentationErrors "p" "f") "f" :=
  ⟨(splitMedia_fallback_combines_errors "p" (Except.error "f")
      (Except.ok ()) []).1,
   (splitMedia_fallback_combines_errors "p" (Except.error "f")
      (Except.ok ()) []).2.1 "f" rfl,
   ((splitMedia_fallback_combines_errors "p" (Except.error "f")
      (Except.ok ()) []).2.2.2 "p" "f").1,
   ((splitMedia_fallback_combines_errors "p" (Except.error "f")
      (Except.ok ()) []).2.2.2 "p" "f").2⟩

/-- The name and message of a thrown JavaScript error. -/
structure ErrInfo where
  name : String
  message : String
deriving Repr, DecidableEq

/-- The structured diagnostic object of
src/utils/transcriptionDiagnostics.ts (the fields the realtime handler
fills in: task id, phase, error message and name, server version,
timestamp), uploaded to `errors/<taskId>-<timestamp>.json`. -/
structure ErrorReport where
  taskId : String
  phase : String
  message : String
  name : String
  serverVersion : Option String
  createdAtIso : String
deriving Repr, DecidableEq

/-- What a scheduler path's fatal-error handler did: the task row after
release, whether a diagnostic upload was attempted, the report actually
persisted (none when the upload itself failed), and the error message
rethrown to the path's caller. -/
structure ErrorHandlerOutcome where
  row : TaskRow
  diagAttempted : Bool
  diagPersisted : Option ErrorReport
  propagated : String
deriving Repr, DecidableEq

/-- The event path's catch block (src/realtime/transcription.ts lines
94-110): release the claim via `resetTranscriptionTaskProcessing(id,
"FAILED")`, attempt `uploadErrorReport` with the structured report, log
an upload failure without masking the original error, and rethrow the
original error. -/
def realtimeOnError (row : TaskRow) (e : ErrInfo) (serverVersion : Option String)
    (nowIso : String) (diagUploadOk : Bool) : ErrorHandlerOutcome :=
  { row := resetTranscriptionTaskProcessing row "FAILED",
    diagAttempted := true,
    diagPersisted :=
      if diagUploadOk then
        some { taskId := row.id, phase := "transcribe", message := e.message,
               name := e.name, serverVersion := serverVersion,
               createdAtIso := nowIso }
      else none,
    propagated := e.message }

/-- The poll path's inner catch block (src/realtime/transcription.ts lines
188-191): release the claim via `resetTranscriptionTaskProcessing(id,
"FAILED")` and rethrow; no diagnostic upload is attempted on this
path. -/
def pollingOnError (row : TaskRow) (e : ErrInfo) : ErrorHandlerOutcome :=
  { row := resetTranscriptionTaskProcessing row "FAILED",
    diagAttempted := false,
    diagPersisted := none,
    propagated := e.message }

/-- C4 counterexample: on a fatal transcription error the poll-triggered
scheduler path releases the claim but does not attempt any diagnostic
upload, contradicting the claim that both scheduler paths attempt to
upload a structured diagnostic object. -/
theorem pollingOnError_no_diagnostic_counterexample :
    (pollingOnError
      { id := "t4", result_url := some "processing:polling:1",
        status := "PROCESSING", openai_task_id := none, progress := none,
        language := none }
      { name := "Error", message := "boom" }).diagAttempted = false
    ∧ (pollingOnError
      { id := "t4", result_url := some "processing:polling:1",
        status := "PROCESSING", openai_task_id := none, progress := none,
        language := none }
      { name := "Error", message := "boom" }).diagPersisted = none := ⟨rfl, rfl⟩

/-- C4 amended: on a fatal pipeline error both scheduler paths release the
claim (sentinel cleared, status FAILED) and propagate the original
error to their caller, but only the event-triggered path attempts to
upload the structured diagnostic object (task id, phase, error name and
message, timestamp); on that path the original error is still
propagated even when the diagnostic upload itself fails.  The
poll-triggered path releases and propagates without any diagnostic
upload. -/
theorem schedulers_fatal_error_policy (row : TaskRow) (e : ErrInfo)
    (sv : Option String) (nowIso : String) (uploadOk : Bool) :
    (realtimeOnError row e sv nowIso uploadOk).row
      = resetTranscriptionTaskProcessing row "FAILED"
    ∧ (realtimeOnError row e sv nowIso uploadOk).row.result_url = none
    ∧ (realtimeOnError row e sv nowIso uploadOk).row.status = "FAILED"
    ∧ (realtimeOnError row e sv nowIso uploadOk).diagAttempted = true
    ∧ (realtimeOnError row e sv nowIso uploadOk).propagated = e.message
    ∧ (uploadOk = true →
        (realtimeOnError row e sv nowIso uploadOk).diagPersisted
          = some { taskId := row.id, phase := "transcribe",
                   message := e.message, name := e.name, serverVersion := sv,
                   createdAtIso := nowIso })
    ∧ (uploadOk = false →
        (realtimeOnError row e sv nowIso uploadOk).diagPersisted = none
        ∧ (realtimeOnError row e sv nowIso uploadOk).propagated = e.message)
    ∧ (pollingOnError row e).row = resetTranscriptionTaskProcessing row "FAILED"
    ∧ (pollingOnError row e).row.result_url = none
    ∧ (pollingOnError row e).row.status = "FAILED"
    ∧ (pollingOnError row e).propagated = e.message
    ∧ (pollingOnError row e).diagAttempted = false := by
  refine ⟨rfl, rfl, rfl, rfl, rfl, ?_, ?_, rfl, rfl, rfl, rfl, rfl⟩
  · intro h
    subst h
    rfl
  · intro h
    subst h
    exact ⟨rfl, rfl⟩

/-- C4 witness: a concrete failing task on the event path with a failing
diagnostic upload still releases the claim and propagates "boom". -/
theorem schedulers_fatal_error_policy_witness :
    (realtimeOnError
      { id := "t4w", result_url := some "processing:realtime:2",
        status := "PROCESSING", openai_task_id := some "run1",
        progress := none, language := none }
      { name := "Error", message := "boom" } none "2026-01-01" false).diagPersisted
      = none
    ∧ (realtimeOnError
      { id := "t4w", result_url := some "processing:realtime:2",
        status := "PROCESSING", openai_task_id := some "run1",
        progress := none, language := none }
      { name := "Error", message := "boom" } none "2026-01-01" false).propagated
      = "boom" :=
  (schedulers_fatal_error_policy
    { id := "t4w", result_url := some "processing:realtime:2",
      status := "PROCESSING", openai_task_id := some "run1",
      progress := none, language := none }
    { name := "Error", message := "boom" } none "2026-01-01" false).2.2.2.2.2.2.1
    rfl

/-- Extraction of the object path inside the bucket from a public chunk
URL (src/utils/transcription.ts lines 128-142): split on "/", locate
the bucket component, and take everything after it; URLs in which the
bucket is absent or last yield nothing. -/
def extractFilePath (bucket url : String) : Option String :=
  let parts := url.splitOn "/"
  match parts.findIdx? (fun p => p == bucket) with
  | some bi =>
    if bi + 1 < parts.length then
      some (String.intercalate "/" (parts.drop (bi + 1)))
    else none
  | none => none

/-- The storage paths `cleanupFileChunksFromStorage` deletes for the given
chunk URLs (src/utils/transcription.ts lines 125-147). -/
def cleanupStoragePaths (bucket : String) (mediaUrls : List String) :
    List String :=
  mediaUrls.filterMap (extractFilePath bucket)

/-- `cleanupFileChunksFromStorage` (src/utils/transcription.ts lines
122-162) never throws: with no valid paths it returns after a warning;
a storage-remove error is logged and explicitly not rethrown.  Returns
whether a remove call was issued.  `removeResult` is the outcome of the
storage remove. -/
def cleanupFileChunksFromStorage (bucket : String) (mediaUrls : List String)
    (removeResult : Except String Unit) : Bool :=
  let paths := cleanupStoragePaths bucket mediaUrls
  if paths.isEmpty then false
  else
    match removeResult with
    | Except.ok _ => true
    | Except.error _ => true

/-- Executable model of the JavaScript `String.prototype.trim()`: strip
whitespace from both ends.  (Core `String.trim` is used by no claim
directly; this list-based equivalent reduces under `decide`.) -/
def trimWS (s : String) : String :=
  String.mk
    (((s.data.dropWhile Char.isWhitespace).reverse.dropWhile
      Char.isWhitespace).reverse)

/-- Observable outcome of the publication tail of
`transcribeMediaWithOpenAI`: the status the run wrote to the task
store, whether cleanup was invoked, and the value returned or error
raised to the scheduler. -/
structure PublishOutcome where
  statusWritten : Option String
  cleanupInvoked : Bool
  returned : Except String String
deriving Repr

/-- The tail of `transcribeMediaWithOpenAI`
(src/utils/transcription.ts lines 445-468): reject an empty merged
transcript; upload the result text (`uploadResultText`, propagating an
upload failure); on success set the task status to COMPLETED (line
454), then run cleanup — `cleanupFileChunksFromStorage` followed by
`deleteTranscriptionFilesByTaskId` — inside a `try/catch` whose handler
only logs (lines 458-465); finally return the published result URL.
`upload` is the outcome of the result upload and `cleanup` the combined
outcome of the two cleanup steps. -/
def publishAndCleanup (mergedText : String) (upload : Except String String)
    (cleanup : Except String Unit) : PublishOutcome :=
  if (trimWS mergedText).length == 0 then
    { statusWritten := none, cleanupInvoked := false,
      returned := Except.error "Merged transcription is empty" }
  else
    match upload with
    | Except.error e =>
      { statusWritten := none, cleanupInvoked := false,
        returned := Except.error e }
    | Except.ok url =>
      match cleanup with
      | Except.ok _ =>
        { statusWritten := some "COMPLETED", cleanupInvoked := true,
          returned := Except.ok url }
      | Except.error _ =>
        { statusWritten := some "COMPLETED", cleanupInvoked := true,
          returned := Except.ok url }

/-- C6: cleanup runs only in the branch where the run has just published
the result and set the task COMPLETED: if cleanup was invoked then the
status written is COMPLETED and the call returns the published URL; the
outcome is identical for every cleanup result (a cleanup failure is
swallowed and can change neither the status nor the returned result),
and `cleanupFileChunksFromStorage` itself returns identically whether
the storage remove succeeds or fails. -/
theorem cleanup_gated_on_completion (mergedText : String)
    (upload : Except String String) (cleanup cleanup' : Except String Unit) :
    ((publishAndCleanup mergedText upload cleanup).cleanupInvoked = true →
      (publishAndCleanup mergedText upload cleanup).statusWritten
        = some "COMPLETED"
      ∧ ∃ url : String, upload = Except.ok url
          ∧ (publishAndCleanup mergedText upload cleanup).returned
            = Except.ok url)
    ∧ publishAndCleanup mergedText upload cleanup
      = publishAndCleanup mergedText upload cleanup'
    ∧ (∀ b : String, ∀ urls : List String, ∀ r : Except String Unit,
        cleanupFileChunksFromStorage b urls r
          = cleanupFileChunksFromStorage b urls (Except.ok ())) := by
  refine ⟨?_, ?_, ?_⟩
  · intro h
    by_cases hm : (trimWS mergedText).length == 0
    · simp [publishAndCleanup, hm] at h
    · cases upload with
      | error e => simp [publishAndCleanup, hm] at h
      | ok url =>
        refine ⟨?_, url, rfl, ?_⟩
        · cases cleanup with
          | ok u => simp [publishAndCleanup, hm]
          | error e => simp [publishAndCleanup, hm]
        · cases cleanup with
          | ok u => simp [publishAndCleanup, hm]
          | error e => simp [publishAndCleanup, hm]
  · by_cases hm : (trimWS mergedText).length == 0
    · simp [publishAndCleanup, hm]
    · cases upload with
      | error e => simp [publishAndCleanup, hm]
      | ok url =>
        cases cleanup with
        | ok u =>
          cases cleanup' with
          | ok v => rfl
          | error e => simp [publishAndCleanup, hm]
        | error e =>
          cases cleanup' with
          | ok v => simp [publishAndCleanup, hm]
          | error f => rfl
  · intro b urls r
    cases r with
    | ok u => rfl
    | error e =>
      by_cases hp : (cleanupStoragePaths b urls).isEmpty
      · simp [cleanupFileChunksFromStorage, hp]
      · simp [cleanupFileChunksFromStorage, hp]

/-- C6 witness: a concrete successful run ("hello", upload OK) with a
failing cleanup still reports COMPLETED and returns the published URL,
and its outcome equals the outcome with a succeeding cleanup. -/
theorem cleanup_gated_on_completion_witness :
    ((publishAndCleanup "hello" (Except.ok "https://x/result/t.txt")
        (Except.error "cleanup failed")).statusWritten = some "COMPLETED"
      ∧ ∃ url : String,
          (Except.ok "https://x/result/t.txt" : Except String String)
            = Except.ok url
          ∧ (publishAndCleanup "hello" (Except.ok "https://x/result/t.txt")
              (Except.error "cleanup failed")).returned = Except.ok url)
    ∧ publishAndCleanup "hello" (Except.ok "https://x/result/t.txt")
        (Except.error "cleanup failed")
      = publishAndCleanup "hello" (Except.ok "https://x/result/t.txt")
        (Except.ok ()) := by
  refine ⟨?_, ?_⟩
  · exact (cleanup_gated_on_completion "hello"
      (Except.ok "https://x/result/t.txt") (Except.error "cleanup failed")
      (Except.ok ())).1 (by decide)
  · exact (cleanup_gated_on_completion "hello"
      (Except.ok "https://x/result/t.txt") (Except.error "cleanup failed")
      (Except.ok ())).2.1

/-- Zero-padding of a number to a fixed width, modelling
`String(i).padStart(width, "0")`. -/
def padZeros (width : Nat) (n : Nat) : String :=
  String.mk (List.replicate (width - (toString n).length) '0') ++ toString n

/-- `downloadChunksOrdered` (src/utils/chunkedUploads.ts lines 62-87, also
lines 351-376 of the later revision) on the tail of the URL list with
`i` the ordinal of the next chunk: each URL is downloaded sequentially
to `part-%05d.m4a`, a failed download rejects with the underlying error
unchanged, and the `fsp.stat` check rejects an empty file with an error
identifying the chunk ordinal.  `download` maps a URL to the downloaded
bytes (modelled as a string) or a network error. -/
def downloadChunksOrderedAux (download : String → Except String String) :
    List String → Nat → Except String (List (String × String))
  | [], _ => Except.ok []
  | u :: rest, i =>
    match download u with
    | Except.error e => Except.error e
    | Except.ok c =>
      if c.length = 0 then
        Except.error ("Downloaded chunk is empty: index=" ++ toString i)
      else
        match downloadChunksOrderedAux download rest (i + 1) with
        | Except.error e => Except.error e
        | Except.ok tail =>
          Except.ok (("part-" ++ padZeros 5 i ++ ".m4a", c) :: tail)

/-- `downloadChunksOrdered` proper: the ordinal starts at 0. -/
def downloadChunksOrdered (download : String → Except String String)
    (urls : List String) : Except String (List (String × String)) :=
  downloadChunksOrderedAux download urls 0

/-- `downloadAllChunks` (src/utils/transcription.ts lines 62-78): the merge
pipeline's chunk download.  Each URL is downloaded sequentially and the
file renamed into the working directory (`src-%03d` naming and the
rename/copy fallback are elided: no claim depends on them); there is no
size verification, and a download failure propagates the underlying
error unchanged, without any chunk index.  Returns the downloaded
contents in order. -/
def downloadAllChunks (download : String → Except String String) :
    List String → Except String (List String)
  | [] => Except.ok []
  | u :: rest =>
    match download u with
    | Except.error e => Except.error e
    | Except.ok c =>
      match downloadAllChunks download rest with
      | Except.error e => Except.error e
      | Except.ok tail => Except.ok (c :: tail)

/-- The content a successful download yields for a URL. -/
def downloadedContent (download : String → Except String String)
    (u : String) : String :=
  ((download u).toOption).getD ""

theorem downloadChunksOrderedAux_ok (download : String → Except String String)
    (urls : List String) (i : Nat)
    (h : ∀ u ∈ urls, ∃ c, download u = Except.ok c ∧ c.length ≠ 0) :
    ∃ out, downloadChunksOrderedAux download urls i = Except.ok out
      ∧ out.map Prod.snd = urls.map (downloadedContent download)
      ∧ out.map Prod.fst
        = (List.range' i urls.length).map
            (fun j => "part-" ++ padZeros 5 j ++ ".m4a") := by
  induction urls generalizing i with
  | nil => exact ⟨[], rfl, rfl, rfl⟩
  | cons u rest ih =>
    obtain ⟨c, hc, hcne⟩ := h u (List.mem_cons_self u rest)
    obtain ⟨tail, htail, hsnd, hfst⟩ :=
      ih (i + 1) (fun v hv => h v (List.mem_cons_of_mem u hv))
    refine ⟨("part-" ++ padZeros 5 i ++ ".m4a", c) :: tail, ?_, ?_, ?_⟩
    · simp only [downloadChunksOrderedAux, hc, if_neg hcne, htail]
    · simp [hsnd, downloadedContent, hc, Except.toOption]
    · simp [hfst, List.range'_succ]

theorem downloadChunksOrderedAux_empty_chunk
    (download : String → Except String String) (u : String) (c : String)
    (post : List String) :
    ∀ pre : List String, ∀ i : Nat,
    (∀ v ∈ pre, ∃ cv, download v = Except.ok cv ∧ cv.length ≠ 0) →
    download u = Except.ok c → c.length = 0 →
    downloadChunksOrderedAux download (pre ++ u :: post) i
      = Except.error ("Downloaded chunk is empty: index="
          ++ toString (i + pre.length)) := by
  intro pre
  induction pre with
  | nil =>
    intro i _ hu hc
    simp only [List.nil_append, downloadChunksOrderedAux, hu, hc, if_pos rfl]
    simp
  | cons v pre' ih =>
    intro i hpre hu hc
    obtain ⟨cv, hcv, hcvne⟩ := hpre v (List.mem_cons_self v pre')
    rw [List.cons_append]
    simp only [downloadChunksOrderedAux, hcv, if_neg hcvne]
    rw [ih (i + 1) (fun w hw => hpre w (List.mem_cons_of_mem v hw)) hu hc]
    have : i + 1 + pre'.length = i + (pre'.length + 1) := by omega
    simp [this]

/-- C7 counterexample: the merge path's chunk downloader
(`downloadAllChunks`) accepts a zero-size download without any error:
for a single URL whose download yields zero bytes it returns
successfully, whereas the claim requires a failure identifying the
ordinal index of the failing chunk. -/
theorem downloadAllChunks_accepts_zero_size_counterexample :
    downloadAllChunks (fun _ => Except.ok "") ["u0"] = Except.ok [""] := rfl

/-- C7 amended: only the chunked-upload assembler's downloader
(`downloadChunksOrdered`) verifies that every downloaded chunk has
non-zero size: it rejects the first zero-size download with an error
naming that chunk's ordinal index, and succeeds with the contents in
URL order (under their ordinal `part-%05d` names) when all downloads
are non-empty; the merge path's `downloadAllChunks` performs no size
verification and succeeds on any downloads, zero-size included. -/
theorem downloadChunksOrdered_verifies_size
    (download : String → Except String String) :
    (∀ pre post : List String, ∀ u c : String,
      (∀ v ∈ pre, ∃ cv, download v = Except.ok cv ∧ cv.length ≠ 0) →
      download u = Except.ok c → c.length = 0 →
      downloadChunksOrdered download (pre ++ u :: post)
        = Except.error ("Downloaded chunk is empty: index="
            ++ toString pre.length))
    ∧ (∀ urls : List String,
      (∀ v ∈ urls, ∃ cv, download v = Except.ok cv ∧ cv.length ≠ 0) →
      ∃ out, downloadChunksOrdered download urls = Except.ok out
        ∧ out.map Prod.snd = urls.map (downloadedContent download)
        ∧ out.map Prod.fst
          = (List.range urls.length).map
              (fun j => "part-" ++ padZeros 5 j ++ ".m4a"))
    ∧ (∀ urls : List String,
      (∀ v ∈ urls, ∃ cv, download v = Except.ok cv) →
      downloadAllChunks download urls
        = Except.ok (urls.map (downloadedContent download))) := by
  refine ⟨?_, ?_, ?_⟩
  · intro pre post u c hpre hu hc
    rw [downloadChunksOrdered,
      downloadChunksOrderedAux_empty_chunk download u c post pre 0 hpre hu hc]
    simp
  · intro urls h
    obtain ⟨out, hout, hsnd, hfst⟩ :=
      downloadChunksOrderedAux_ok download urls 0 h
    exact ⟨out, hout, hsnd, by rw [hfst, List.range_eq_range']⟩
  · intro urls h
    induction urls with
    | nil => rfl
    | cons u rest ih =>
      obtain ⟨cu, hcu⟩ := h u (List.mem_cons_self u rest)
      simp only [downloadAllChunks, hcu,
        ih (fun v hv => h v (List.mem_cons_of_mem u hv))]
      simp [downloadedContent, hcu, Except.toOption]

/-- C7 witness: with downloads yielding "x" for "a" and zero bytes for
"z", the ordered downloader fails naming index 1, succeeds on ["a"]
alone, and `downloadAllChunks` accepts the zero-size chunk. -/
theorem downloadChunksOrdered_verifies_size_witness :
    downloadChunksOrdered
      (fun v => if v = "a" then Except.ok "x" else Except.ok "")
      (["a"] ++ "z" :: [])
      = Except.error ("Downloaded chunk is empty: index="
          ++ toString (["a"] : List String).length)
    ∧ downloadAllChunks
      (fun v => if v = "a" then Except.ok "x" else Except.ok "")
      ["a", "z"]
      = Except.ok (["a", "z"].map (downloadedContent
          (fun v => if v = "a" then Except.ok "x" else Except.ok ""))) := by
  constructor
  · exact (downloadChunksOrdered_verifies_size
      (fun v => if v = "a" then Except.ok "x" else Except.ok "")).1
      ["a"] [] "z" ""
      (by
        intro v hv
        have hv' : v = "a" := by simpa using hv
        subst hv'
        exact ⟨"x", rfl, by decide⟩)
      (by simp) rfl
  · exact (downloadChunksOrdered_verifies_size
      (fun v => if v = "a" then Except.ok "x" else Except.ok "")).2.2
      ["a", "z"]
      (by
        intro v hv
        by_cases hva : v = "a"
        · subst hva
          exact ⟨"x", rfl⟩
        · exact ⟨"", by simp [hva]⟩)

/-- One row of the `transcription_files` table, restricted to the columns
`assembleAndTranscribeM4a` reads. -/
structure TranscriptionFile where
  media_url : Option String
  chunk_index : Option Int
  created_at : Option String
deriving Repr, DecidableEq

/-- `created_at ?? ""` as in the comparator. -/
def createdD (f : TranscriptionFile) : String := f.created_at.getD ""

/-- The chunk index of an indexed file (0 when absent; only used on files
known to carry an index). -/
def idxD (f : TranscriptionFile) : Int := f.chunk_index.getD 0

/-- The chunk-ordering comparator of `assembleAndTranscribeM4a`
(src/utils/chunkedUploads.ts lines 463-470 of the later revision):
when both rows carry a numeric `chunk_index` the comparator orders by
`ai - bi`; otherwise it falls back to comparing the `created_at`
strings (`localeCompare`, modelled by lexicographic string order).
`fileLEb a b` holds when the comparator puts `a` at or before `b`. -/
def fileLEb (a b : TranscriptionFile) : Bool :=
  match a.chunk_index, b.chunk_index with
  | some ai, some bi => decide (ai ≤ bi)
  | _, _ => decide (createdD a ≤ createdD b)

/-- The comparator as a decidable relation for sorting. -/
def fileLEp (a b : TranscriptionFile) : Prop := fileLEb a b = true

instance instDecRelFileLEp : DecidableRel fileLEp :=
  fun a b => inferInstanceAs (Decidable (fileLEb a b = true))

/-- The sort `[...opts.files].sort(comparator)` — JavaScript array sort is
stable; a stable insertion sort by the comparator models it. -/
def sortFiles (files : List TranscriptionFile) : List TranscriptionFile :=
  List.insertionSort fileLEp files

theorem fileLEp_total (a b : TranscriptionFile) : fileLEp a b ∨ fileLEp b a := by
  unfold fileLEp fileLEb
  cases hai : a.chunk_index with
  | none =>
    cases hbi : b.chunk_index <;> simp [decide_eq_true_eq] <;> exact le_total _ _
  | some ai =>
    cases hbi : b.chunk_index with
    | none => simp [decide_eq_true_eq]; exact le_total _ _
    | some bi => simp [decide_eq_true_eq]; exact le_total ai bi

theorem orderedInsert_chain' {α : Type} (R : α → α → Prop) [DecidableRel R]
    (htot : ∀ a b : α, R a b ∨ R b a) (x : α) (l : List α)
    (hl : List.Chain' R l) :
    List.Chain' R (List.orderedInsert R x l)
    ∧ ∀ hd : α, (List.orderedInsert R x l).head? = some hd →
        hd = x ∨ l.head? = some hd := by
  induction l with
  | nil =>
    refine ⟨by simp, ?_⟩
    intro hd h
    simp only [List.orderedInsert, List.head?_cons] at h
    exact Or.inl (Option.some.inj h).symm
  | cons y ys ih =>
    have hys : List.Chain' R ys := hl.tail
    obtain ⟨hins, hhd⟩ := ih hys
    by_cases hxy : R x y
    · refine ⟨?_, ?_⟩
      · simp only [List.orderedInsert, if_pos hxy]
        exact List.chain'_cons.mpr ⟨hxy, hl⟩
      · intro hd h
        simp only [List.orderedInsert, if_pos hxy, List.head?_cons] at h
        exact Or.inl (Option.some.inj h).symm
    · refine ⟨?_, ?_⟩
      · simp only [List.orderedInsert, if_neg hxy]
        refine List.chain'_cons'.mpr ⟨?_, hins⟩
        intro z hz
        have hz' : (List.orderedInsert R x ys).head? = some z :=
          Option.mem_def.mp hz
        rcases hhd z hz' with hzx | hzys
        · rw [hzx]
          exact (htot x y).resolve_left hxy
        · exact (List.chain'_cons'.mp hl).1 z (Option.mem_def.mpr hzys)
      · intro hd h
        simp only [List.orderedInsert, if_neg hxy, List.head?_cons] at h
        exact Or.inr h

theorem sortFiles_chain' (files : List TranscriptionFile) :
    List.Chain' fileLEp (sortFiles files) := by
  induction files with
  | nil => simp [sortFiles, List.insertionSort]
  | cons a l ih =>
    rw [sortFiles, List.insertionSort]
    exact (orderedInsert_chain' fileLEp fileLEp_total a _ ih).1

theorem chain'_map_idxD (l : List TranscriptionFile)
    (hall : ∀ f ∈ l, f.chunk_index.isSome = true)
    (hc : List.Chain' fileLEp l) :
    List.Chain' (fun x y : Int => x ≤ y) (l.map idxD) := by
  induction l with
  | nil => simp
  | cons a t ih =>
    cases t with
    | nil => simp
    | cons b t' =>
      rw [List.map_cons, List.map_cons]
      refine List.chain'_cons.mpr ⟨?_, ?_⟩
      · have hr : fileLEp a b := (List.chain'_cons.mp hc).1
        obtain ⟨ai, hai⟩ := Option.isSome_iff_exists.mp (hall a (by simp))
        obtain ⟨bi, hbi⟩ := Option.isSome_iff_exists.mp (hall b (by simp))
        unfold fileLEp fileLEb at hr
        rw [hai, hbi] at hr
        simp only [decide_eq_true_eq] at hr
        simpa [idxD, hai, hbi] using hr
      · have := ih (fun f hf => hall f (List.mem_cons_of_mem a hf))
          (List.chain'_cons.mp hc).2
        simpa using this

theorem chain'_map_createdD (l : List TranscriptionFile)
    (hall : ∀ f ∈ l, f.chunk_index = none)
    (hc : List.Chain' fileLEp l) :
    List.Chain' (fun x y : String => x ≤ y) (l.map createdD) := by
  induction l with
  | nil => simp
  | cons a t ih =>
    cases t with
    | nil => simp
    | cons b t' =>
      rw [List.map_cons, List.map_cons]
      refine List.chain'_cons.mpr ⟨?_, ?_⟩
      · have hr : fileLEp a b := (List.chain'_cons.mp hc).1
        have hai := hall a (by simp)
        unfold fileLEp fileLEb at hr
        rw [hai] at hr
        simpa only [decide_eq_true_eq] using hr
      · have := ih (fun f hf => hall f (List.mem_cons_of_mem a hf))
          (List.chain'_cons.mp hc).2
        simpa using this

/-- `concatenateChunksBinary` (src/utils/chunkedUploads.ts lines 93-121 /
382-410) on the tail of the content list with `i` the ordinal of the
next chunk: each chunk is stat-checked (an empty chunk rejects with an
error naming its index) and its bytes appended to the output stream in
list order. -/
def concatenateChunksBinaryAux : List String → Nat → Except String String
  | [], _ => Except.ok ""
  | c :: rest, i =>
    if c.length = 0 then
      Except.error ("Chunk file is empty or not a file: index=" ++ toString i)
    else
      match concatenateChunksBinaryAux rest (i + 1) with
      | Except.error e => Except.error e
      | Except.ok tail => Except.ok (c ++ tail)

/-- `concatenateChunksBinary` proper: an empty input list is rejected, and
the chunks are streamed in order starting at ordinal 0. -/
def concatenateChunksBinary (contents : List String) : Except String String :=
  if contents.isEmpty then Except.error "No input chunks to concatenate"
  else concatenateChunksBinaryAux contents 0

theorem concatenateChunksBinaryAux_ok (contents : List String) (i : Nat)
    (h : ∀ c ∈ contents, c.length ≠ 0) :
    concatenateChunksBinaryAux contents i
      = Except.ok (contents.foldr (fun a b => a ++ b) "") := by
  induction contents generalizing i with
  | nil => rfl
  | cons c rest ih =>
    have hc := h c (List.mem_cons_self c rest)
    simp only [concatenateChunksBinaryAux, if_neg hc,
      ih (i + 1) (fun v hv => h v (List.mem_cons_of_mem c hv))]
    rfl

/-- The URLs entering the download, in sorted order
(src/utils/chunkedUploads.ts lines 471-473): map to `media_url` and
keep the string-typed entries. -/
def assembleUrls (files : List TranscriptionFile) : List String :=
  (sortFiles files).filterMap (fun f => f.media_url)

/-- The assembly front of `assembleAndTranscribeM4a`
(src/utils/chunkedUploads.ts lines 461-489): sort the chunk rows with
the comparator, download the chunk URLs in that order
(`downloadChunksOrdered`), then binary-concatenate the downloaded files
in list order; the assembled stream is the concatenation of the chunk
contents. -/
def assembleStream (download : String → Except String String)
    (files : List TranscriptionFile) : Except String String :=
  match downloadChunksOrdered download (assembleUrls files) with
  | Except.error e => Except.error e
  | Except.ok parts => concatenateChunksBinary (parts.map Prod.snd)

/-- C8: the chunk rows of a task are assembled in the total order of the
comparator — by explicit `chunk_index` when both carry one, by
`created_at` otherwise: the sort is a permutation of the rows, adjacent
rows of the sorted list respect the comparator, a fully-indexed task is
ordered by chunk index and an unindexed task by upload time, and the
assembled stream is exactly the concatenation of the chunk contents in
that sorted order (downloads are issued and appended sequentially in
list order, so completion order cannot reorder them). -/
theorem chunks_assembled_in_comparator_order
    (download : String → Except String String)
    (files : List TranscriptionFile) :
    (sortFiles files).Perm files
    ∧ List.Chain' fileLEp (sortFiles files)
    ∧ ((∀ f ∈ files, f.chunk_index.isSome = true) →
        List.Sorted (fun x y : Int => x ≤ y) ((sortFiles files).map idxD))
    ∧ ((∀ f ∈ files, f.chunk_index = none) →
        List.Sorted (fun x y : String => x ≤ y)
          ((sortFiles files).map createdD))
    ∧ (assembleUrls files ≠ [] →
        (∀ u ∈ assembleUrls files,
          ∃ c, download u = Except.ok c ∧ c.length ≠ 0) →
        assembleStream download files
          = Except.ok (((assembleUrls files).map
              (downloadedContent download)).foldr (fun a b => a ++ b) "")) := by
  refine ⟨List.perm_insertionSort fileLEp files, sortFiles_chain' files,
    ?_, ?_, ?_⟩
  · intro hall
    have hmem : ∀ f ∈ sortFiles files, f.chunk_index.isSome = true :=
      fun f hf =>
        hall f ((List.perm_insertionSort fileLEp files).subset hf)
    exact List.chain'_iff_pairwise.mp
      (chain'_map_idxD (sortFiles files) hmem (sortFiles_chain' files))
  · intro hall
    have hmem : ∀ f ∈ sortFiles files, f.chunk_index = none :=
      fun f hf =>
        hall f ((List.perm_insertionSort fileLEp files).subset hf)
    exact List.chain'_iff_pairwise.mp
      (chain'_map_createdD (sortFiles files) hmem (sortFiles_chain' files))
  · intro hne hok
    obtain ⟨out, hout, hsnd, hfst⟩ :=
      downloadChunksOrderedAux_ok download (assembleUrls files) 0 hok
    rw [assembleStream, downloadChunksOrdered, hout]
    show concatenateChunksBinary (out.map Prod.snd)
      = Except.ok (((assembleUrls files).map
          (downloadedContent download)).foldr (fun a b => a ++ b) "")
    have hnonempty : ¬ (out.map Prod.snd).isEmpty = true := by
      rw [hsnd]
      cases h : assembleUrls files with
      | nil => exact absurd h hne
      | cons a t => simp [h]
    rw [show concatenateChunksBinary (out.map Prod.snd)
        = concatenateChunksBinaryAux (out.map Prod.snd) 0 from
      if_neg hnonempty, hsnd]
    rw [concatenateChunksBinaryAux_ok]
    intro c hcmem
    obtain ⟨u, hu, huc⟩ := List.mem_map.mp hcmem
    obtain ⟨cu, hcu, hcune⟩ := hok u hu
    rw [← huc]
    simpa [downloadedContent, hcu, Except.toOption] using hcune

/-- C8 witness: two chunk rows with explicit indices 1 and 0 are sorted
into index order 0,1 and the assembled stream is the concatenation of
their contents in that order. -/
theorem chunks_assembled_in_comparator_order_witness :
    List.Sorted (fun x y : Int => x ≤ y)
      ((sortFiles
        [{ media_url := some "u1", chunk_index := some 1,
           created_at := some "2024-01-02" },
         { media_url := some "u0", chunk_index := some 0,
           created_at := some "2024-01-01" }]).map idxD)
    ∧ assembleStream (fun _ => Except.ok "x")
      [{ media_url := some "u1", chunk_index := some 1,
         created_at := some "2024-01-02" },
       { media_url := some "u0", chunk_index := some 0,
         created_at := some "2024-01-01" }]
      = Except.ok (((assembleUrls
          [{ media_url := some "u1", chunk_index := some 1,
             created_at := some "2024-01-02" },
           { media_url := some "u0", chunk_index := some 0,
             created_at := some "2024-01-01" }]).map
          (downloadedContent (fun _ => Except.ok "x"))).foldr
          (fun a b => a ++ b) "") := by
  constructor
  · exact (chunks_assembled_in_comparator_order (fun _ => Except.ok "x")
      [{ media_url := some "u1", chunk_index := some 1,
         created_at := some "2024-01-02" },
       { media_url := some "u0", chunk_index := some 0,
         created_at := some "2024-01-01" }]).2.2.1 (by decide)
  · exact (chunks_assembled_in_comparator_order (fun _ => Except.ok "x")
      [{ media_url := some "u1", chunk_index := some 1,
         created_at := some "2024-01-02" },
       { media_url := some "u0", chunk_index := some 0,
         created_at := some "2024-01-01" }]).2.2.2.2 (by decide)
      (fun u hu => ⟨"x", rfl, by decide⟩)
